import Mathlib

/-!
# HDRMerge: the render thread and the command line

A shallow embedding of `src/RenderThread.cpp` and `src/main.cpp`.

* Machine integers are `Int`/`Nat`; a conversion to `unsigned int` is
  written out as a reduction modulo `2^32`.
* `ExposureStack` (declared in `Exposure.hpp`, which is not among the
  sources) is a parameter: a state type `σ` with the operations the render
  thread and `main` call on it.
* The two threads are interleaved at the granularity of one row of
  `doRender`: the worker thread advances by `run`, one step at a time, and
  every control-side member function is one atomic action (each of them holds
  the mutex for the whole of its work on the shared fields).
* Floating point is not modelled: the value
  `(int)std::floor(65536.0f * std::pow(i / 65536.0f, g))` of `setGamma` is a
  parameter, and the `double`s that `ExposureStack::rgb` returns are
  rationals.
-/

namespace HDRMerge

/-! ## Machine integers and Qt values -/

/-- Conversion of an `int` to `unsigned int`: the value modulo `2^32`. -/
def toU32 (z : Int) : Nat := (z % 4294967296).toNat

/-- Conversion of an `unsigned int` to `int` (two's complement). -/
def toI32 (n : Nat) : Int :=
  if n % 4294967296 < 2147483648 then (n % 4294967296 : Nat) else (n % 4294967296 : Nat) - 4294967296

/-- Subtraction of two `unsigned int`s. -/
def subU32 (a b : Nat) : Nat := (a % 4294967296 + 4294967296 - b % 4294967296) % 4294967296

/-- A `QRgb` value: an unsigned 32-bit `0xAARRGGBB` word. -/
abbrev QRgb := Nat

/-- Qt's `qRgb(r, g, b)`:
`(0xffu << 24) | ((r & 0xff) << 16) | ((g & 0xff) << 8) | (b & 0xff)`. -/
def qRgb (r g b : Int) : QRgb :=
  4278190080 + (r % 256).toNat * 65536 + (g % 256).toNat * 256 + (b % 256).toNat

/-- The cast `(int)d` of a `double`: truncation towards zero. -/
def truncInt (d : ℚ) : Int := if 0 ≤ d then ⌊d⌋ else ⌈d⌉

/-- A `QImage` of format `RGB32`: its size and its scan lines. A pixel that
has not been written since the image was constructed is `none` (Qt leaves
the buffer uninitialised). `pixels line pos` is entry `pos` of scan line
`line`. -/
structure QImage where
  width : Int
  height : Int
  pixels : Nat → Nat → Option QRgb

/-- The constructor `QImage(width, height, QImage::Format_RGB32)`. -/
def QImage.create (width height : Int) : QImage :=
  { width := width, height := height, pixels := fun _ _ => none }

/-- The store `*scanLine++ = c`, with `scanLine` at entry `pos` of `line`. -/
def QImage.store (image : QImage) (line pos : Nat) (c : QRgb) : QImage :=
  { image with pixels := fun l p => if l = line ∧ p = pos then some c else image.pixels l p }

/-! ## The exposure stack (a parameter) -/

/-- The member functions of `ExposureStack` that `RenderThread.cpp` calls,
over a state type `σ`. `Exposure.hpp` is not among the sources, so they are
taken as parameters. -/
structure ExposureStackOps (σ : Type) where
  setThreshold : σ → Int → Int → σ
  setRelativeExposure : σ → Int → ℚ → σ
  addPixels : σ → Int → Int → Int → Int → σ
  removePixels : σ → Int → Int → Int → Int → σ
  setScale : σ → Int → σ
  getWidth : σ → Nat
  getHeight : σ → Nat
  rgb : σ → Nat → Nat → ℚ × ℚ × ℚ

/-! ## The render thread -/

/-- The three `emit renderedImage(...)` statements of `RenderThread.cpp`. -/
inductive Site where
  | patch
  | viewport
  | full
  deriving DecidableEq, Repr

/-- One `renderedImage(x, y, width, height, image)` signal. `site`,
`rowsRendered` and `rowsRequested` are ghost fields: the statement that
emitted it, the number of rows the `doRender` call that filled `image`
rendered, and the `maxy - miny` rows that call was asked for. -/
structure Tile where
  site : Site
  x : Int
  y : Int
  width : Nat
  height : Nat
  image : QImage
  rowsRendered : Nat
  rowsRequested : Nat

/-- Where the worker thread stands in `run`.
* `top`: at `if (abort) return;` (line 127);
* `viewport row a`: inside `doRender(_minx, _miny, _maxx, _maxy, a, true)`
  (line 132), at the loop test for `row`;
* `full row maxx maxy b`: inside `doRender(0, 0, getWidth(), getHeight(), b)`
  (line 138), at the loop test for `row`, with the by-value bounds of the call;
* `lock row maxy b`: at `mutex.lock()` (line 139), the full pass having left
  its loop at `row`;
* `waiting`: blocked in `condition.wait(&mutex)` (line 143);
* `woken`: the wait has been signalled, line 145 is next;
* `finished`: `run` has returned. -/
inductive Pc where
  | top
  | viewport (row : Nat) (a : QImage)
  | full (row maxx maxy : Nat) (b : QImage)
  | lock (row maxy : Nat) (b : QImage)
  | waiting
  | woken
  | finished

/-- The `RenderThread` object. `restart` to `gamma` are its data members
(the region bounds are kept as their 32-bit words); `pc` and `_minx` to
`_maxy` are the frame of `run`; `wakeups` counts the calls of
`condition.wakeOne()` and `emitted` lists the signals sent, oldest first. -/
structure RenderThread (σ : Type) where
  restart : Bool
  abort : Bool
  images : σ
  minx : Nat
  miny : Nat
  maxx : Nat
  maxy : Nat
  scale : Int
  gamma : Int → Int
  pc : Pc
  _minx : Nat
  _miny : Nat
  _maxx : Nat
  _maxy : Nat
  wakeups : Nat
  emitted : List Tile

/-- The values of `restart` and `abort` a thread reads at one loop test. -/
structure Flags where
  restart : Bool
  abort : Bool
  deriving DecidableEq, Repr

variable {σ : Type}

/-- The body of the inner loop of `doRender` up to the store: the pixel
`qRgb(gamma[r], gamma[g], gamma[b])` for source position `(col, row)`. -/
def renderPixel (ops : ExposureStackOps σ) (images : σ) (gamma : Int → Int) (col row : Nat) : QRgb :=
  let c := ops.rgb images col row
  let r := truncInt c.1
  let g := truncInt c.2.1
  let b := truncInt c.2.2
  qRgb (gamma r) (gamma g) (gamma b)

/-- The inner loop of `doRender`,
`for (col = minx; col < maxx; col++) *scanLine++ = ...`, from `col` on, with
`scanLine` at entry `pos` of scan line `line`. -/
def doRenderCols (ops : ExposureStackOps σ) (images : σ) (gamma : Int → Int) (maxx row line : Nat) :
    Nat → Nat → Nat → QImage → QImage
  | 0, _, _, image => image
  | fuel + 1, col, pos, image =>
    if col < maxx then
      doRenderCols ops images gamma maxx row line fuel (col + 1) (pos + 1)
        (image.store line pos (renderPixel ops images gamma col row))
    else image

/-- What one pass through the head of the outer loop of `doRender` does. -/
inductive RowStep where
  | rendered (image : QImage)
  | left
  | returned

/-- One iteration of the outer loop of `doRender` at `row`, the thread
reading `flags` there: the loop test `(!restart || ignoreRestart) && row < maxy`,
then `if (abort) return;`, then the row. -/
def doRenderRow (ops : ExposureStackOps σ) (images : σ) (gamma : Int → Int) (flags : Flags)
    (minx miny maxx maxy : Nat) (ignoreRestart : Bool) (row : Nat) (image : QImage) : RowStep :=
  if (!flags.restart || ignoreRestart) && decide (row < maxy) then
    if flags.abort then RowStep.returned
    else RowStep.rendered
      (doRenderCols ops images gamma maxx row (row - miny) (maxx - minx) minx 0 image)
  else RowStep.left

/-- What a call of `doRender` leaves: the image, and (ghost) the value of
`row` when the loop was left. -/
structure Rendered where
  image : QImage
  row : Nat

/-- The outer loop of `doRender` from `row` on; `flags r` is what the
thread reads at the loop test for row `r`. -/
def doRenderRows (ops : ExposureStackOps σ) (images : σ) (gamma : Int → Int) (flags : Nat → Flags)
    (minx miny maxx maxy : Nat) (ignoreRestart : Bool) : Nat → Nat → QImage → Rendered
  | 0, row, image => { image := image, row := row }
  | fuel + 1, row, image =>
    match doRenderRow ops images gamma (flags row) minx miny maxx maxy ignoreRestart row image with
    | RowStep.rendered image1 =>
      doRenderRows ops images gamma flags minx miny maxx maxy ignoreRestart fuel (row + 1) image1
    | RowStep.left => { image := image, row := row }
    | RowStep.returned => { image := image, row := row }

/-- `RenderThread::doRender(minx, miny, maxx, maxy, image, ignoreRestart)`.
The loop runs at most `maxy - miny` times. -/
def doRender (ops : ExposureStackOps σ) (images : σ) (gamma : Int → Int) (flags : Nat → Flags)
    (minx miny maxx maxy : Nat) (image : QImage) (ignoreRestart : Bool) : Rendered :=
  doRenderRows ops images gamma flags minx miny maxx maxy ignoreRestart (maxy - miny) miny image

/-- What a signal on the condition does to the worker: blocked in
`condition.wait` it resumes, anywhere else the signal is lost on it. -/
def Pc.wake : Pc → Pc
  | Pc.waiting => Pc.woken
  | p => p

/-- `condition.wakeOne()`. -/
def wakeOne (rt : RenderThread σ) : RenderThread σ :=
  { rt with wakeups := rt.wakeups + 1, pc := rt.pc.wake }

/-- `RenderThread::setGamma(g)`. `floored i` stands for
`(int)std::floor(65536.0f * std::pow(i / 65536.0f, 1.0f / g))`. -/
def setGamma (floored : Int → Int) (rt : RenderThread σ) : RenderThread σ :=
  { rt with gamma := fun i => if 0 ≤ i ∧ i < 65536 then floored i >>> (8 : Nat) else rt.gamma i }

/-- The argument `((th + 1) << 8) - 1` of `setThreshold`. -/
def thresholdArg (th : Int) : Int := ((th + 1) <<< 8) - 1

/-- `RenderThread::setExposureThreshold(i, th)`. -/
def setExposureThreshold (ops : ExposureStackOps σ) (rt : RenderThread σ) (i th : Int) :
    RenderThread σ :=
  wakeOne { rt with images := ops.setThreshold rt.images i (thresholdArg th), restart := true }

/-- `RenderThread::setExposureRelativeEV(i, re)`. -/
def setExposureRelativeEV (ops : ExposureStackOps σ) (rt : RenderThread σ) (i : Int) (re : ℚ) :
    RenderThread σ :=
  wakeOne { rt with images := ops.setRelativeExposure rt.images i re, restart := true }

/-- `RenderThread::setImageViewport(x, y, w, h, newScale)`. -/
def setImageViewport (rt : RenderThread σ) (x y w h newScale : Int) : RenderThread σ :=
  let rt1 := if newScale ≠ rt.scale then { rt with restart := true, scale := newScale } else rt
  let rt2 := { rt1 with
    minx := toU32 x, miny := toU32 y, maxx := toU32 (x + w), maxy := toU32 (y + h) }
  if rt2.restart then wakeOne rt2 else rt2

/-- The three statements `QImage a(...); doRender(..., a, true); emit ...`
that `addPixels` and `removePixels` share, on the edited stack. -/
def renderPatch (ops : ExposureStackOps σ) (rt : RenderThread σ) (images : σ) (x y radius : Int) :
    RenderThread σ :=
  let a := QImage.create (2 * radius + 1) (2 * radius + 1)
  let miny := toU32 (y - radius)
  let maxy := toU32 (y + radius + 1)
  let out := doRender ops images rt.gamma (fun _ => { restart := rt.restart, abort := rt.abort })
    (toU32 (x - radius)) miny (toU32 (x + radius + 1)) maxy a true
  { rt with
    images := images
    emitted := rt.emitted ++ [{
      site := Site.patch, x := x - radius, y := y - radius,
      width := ops.getWidth images, height := ops.getHeight images,
      image := out.image, rowsRendered := out.row - miny, rowsRequested := maxy - miny }] }

/-- `RenderThread::addPixels(i, x, y, radius)`. -/
def addPixels (ops : ExposureStackOps σ) (rt : RenderThread σ) (i x y radius : Int) :
    RenderThread σ :=
  renderPatch ops rt (ops.addPixels rt.images i x y radius) x y radius

/-- `RenderThread::removePixels(i, x, y, radius)`. -/
def removePixels (ops : ExposureStackOps σ) (rt : RenderThread σ) (i x y radius : Int) :
    RenderThread σ :=
  renderPatch ops rt (ops.removePixels rt.images i x y radius) x y radius

/-- The destructor up to its `wait()`: `abort = true; condition.wakeOne();`. -/
def destroy (rt : RenderThread σ) : RenderThread σ :=
  wakeOne { rt with abort := true }

/-- Lines 145 to 151 of `run`: `restart = false`, the copy of the shared
region into `_minx` to `_maxy`, `images->setScale(scale)`, and back to the
head of the `forever` loop. -/
def reread (ops : ExposureStackOps σ) (rt : RenderThread σ) : RenderThread σ :=
  { rt with
    restart := false
    _minx := rt.minx, _miny := rt.miny, _maxx := rt.maxx, _maxy := rt.maxy
    images := ops.setScale rt.images rt.scale
    pc := Pc.top }

/-- Lines 137 and 138 of `run` up to the first loop test:
`QImage b(getWidth(), getHeight(), ...)` and the call of `doRender`, whose
parameters are `unsigned int`. -/
def enterFull (ops : ExposureStackOps σ) (rt : RenderThread σ) : RenderThread σ :=
  { rt with
    pc := Pc.full 0 (ops.getWidth rt.images % 4294967296) (ops.getHeight rt.images % 4294967296)
      (QImage.create (ops.getWidth rt.images) (ops.getHeight rt.images)) }

/-- Line 133 of `run`: `emit renderedImage(_minx, _miny, getWidth(), getHeight(), a)`. -/
def emitViewport (ops : ExposureStackOps σ) (rt : RenderThread σ) (row : Nat) (a : QImage) :
    RenderThread σ :=
  { rt with
    emitted := rt.emitted ++ [{
      site := Site.viewport, x := rt._minx, y := rt._miny,
      width := ops.getWidth rt.images, height := ops.getHeight rt.images,
      image := a, rowsRendered := row - rt._miny, rowsRequested := rt._maxy - rt._miny }] }

/-- Line 141 of `run`: `emit renderedImage(0, 0, getWidth(), getHeight(), b)`. -/
def emitFull (ops : ExposureStackOps σ) (rt : RenderThread σ) (row maxy : Nat) (b : QImage) :
    RenderThread σ :=
  { rt with
    emitted := rt.emitted ++ [{
      site := Site.full, x := 0, y := 0,
      width := ops.getWidth rt.images, height := ops.getHeight rt.images,
      image := b, rowsRendered := row, rowsRequested := maxy }] }

/-- Modelled from the spec: the default value of the parameter
`ignoreRestart` of `doRender`, which `RenderThread.hpp` declares and which is
not among the sources. The call in line 138 of `run` leaves the argument
out; the specification has the full pass check `restart` before each row, so
the default is `false`. -/
def ignoreRestartDefault : Bool := false

/-- One step of the worker thread in `RenderThread::run`. A step is the
code between two points of `Pc`; a row of `doRender` is one step, and so is
each of the two halves of the critical section around `condition.wait`. -/
def run (ops : ExposureStackOps σ) (rt : RenderThread σ) : RenderThread σ :=
  match rt.pc with
  | Pc.top =>
    if rt.abort then { rt with pc := Pc.finished }
    else if 0 < rt._maxy then
      { rt with
        pc := Pc.viewport rt._miny
          (QImage.create (toI32 (subU32 rt._maxx rt._minx)) (toI32 (subU32 rt._maxy rt._miny))) }
    else enterFull ops rt
  | Pc.viewport row a =>
    match doRenderRow ops rt.images rt.gamma { restart := rt.restart, abort := rt.abort }
        rt._minx rt._miny rt._maxx rt._maxy true row a with
    | RowStep.rendered a1 => { rt with pc := Pc.viewport (row + 1) a1 }
    | RowStep.left => enterFull ops (emitViewport ops rt row a)
    | RowStep.returned => enterFull ops (emitViewport ops rt row a)
  | Pc.full row maxx maxy b =>
    match doRenderRow ops rt.images rt.gamma { restart := rt.restart, abort := rt.abort }
        0 0 maxx maxy ignoreRestartDefault row b with
    | RowStep.rendered b1 => { rt with pc := Pc.full (row + 1) maxx maxy b1 }
    | RowStep.left => { rt with pc := Pc.lock row maxy b }
    | RowStep.returned => { rt with pc := Pc.lock row maxy b }
  | Pc.lock row maxy b =>
    if !rt.restart then { emitFull ops rt row maxy b with pc := Pc.waiting }
    else reread ops rt
  | Pc.waiting => rt
  | Pc.woken => reread ops rt
  | Pc.finished => rt

/-- The constructor `RenderThread(es, gamma, parent)`; the thread stands at
the head of `run`. -/
def RenderThread.create (es : σ) (floored : Int → Int) : RenderThread σ :=
  setGamma floored
    { restart := false, abort := false, images := es,
      minx := 0, miny := 0, maxx := 0, maxy := 0, scale := 0,
      gamma := fun _ => 0, pc := Pc.top,
      _minx := 0, _miny := 0, _maxx := 0, _maxy := 0,
      wakeups := 0, emitted := [] }

/-- What can happen next to a `RenderThread`: a call of one of its member
functions from the control side, or one step of the worker thread. -/
inductive Action where
  | setGamma (floored : Int → Int)
  | setExposureThreshold (i th : Int)
  | setExposureRelativeEV (i : Int) (re : ℚ)
  | setImageViewport (x y w h newScale : Int)
  | addPixels (i x y radius : Int)
  | removePixels (i x y radius : Int)
  | destroy
  | run

/-- The effect of one action. -/
def step (ops : ExposureStackOps σ) (rt : RenderThread σ) : Action → RenderThread σ
  | Action.setGamma floored => setGamma floored rt
  | Action.setExposureThreshold i th => setExposureThreshold ops rt i th
  | Action.setExposureRelativeEV i re => setExposureRelativeEV ops rt i re
  | Action.setImageViewport x y w h newScale => setImageViewport rt x y w h newScale
  | Action.addPixels i x y radius => addPixels ops rt i x y radius
  | Action.removePixels i x y radius => removePixels ops rt i x y radius
  | Action.destroy => destroy rt
  | Action.run => run ops rt

/-- An execution: the actions taken, in order. -/
def exec (ops : ExposureStackOps σ) (rt : RenderThread σ) (actions : List Action) : RenderThread σ :=
  actions.foldl (step ops) rt

/-- The worker thread running alone for `n` steps. -/
def runSteps (ops : ExposureStackOps σ) : Nat → RenderThread σ → RenderThread σ
  | 0, rt => rt
  | n + 1, rt => runSteps ops n (run ops rt)

/-! ## The command line (`main.cpp`) -/

/-- A call `main` makes on one of its collaborators: the three member
functions of its `ExposureStack` and `GUI::startGUI`. -/
inductive Call where
  | loadImage (name : String)
  | sort
  | savePFS (name : String)
  | startGUI (names : List String)
  deriving DecidableEq, Repr

/-- The two variables the parsing loop of `main` fills. -/
structure Parsed where
  inFileNames : List String
  outFileName : Option String
  deriving DecidableEq, Repr

/-- The parsing loop of `main`, with `argv[i], ..., argv[argc - 1]` still to
read: a "-o" takes the argument after it, when there is one, as
`outFileName`; any other argument is appended to `inFileNames`. -/
def parseArgs : List String → List String → Option String → Parsed
  | [], inFileNames, outFileName => { inFileNames := inFileNames, outFileName := outFileName }
  | [a], inFileNames, outFileName =>
    if a = "-o" then { inFileNames := inFileNames, outFileName := outFileName }
    else { inFileNames := inFileNames ++ [a], outFileName := outFileName }
  | a :: b :: rest, inFileNames, outFileName =>
    if a = "-o" then parseArgs rest inFileNames (some b)
    else parseArgs (b :: rest) (inFileNames ++ [a]) outFileName

/-- The function `main` on the arguments `argv[1], ..., argv[argc - 1]`: the
calls it makes, in order, and its exit status. `startGUI` gives the status
the interactive shell returns. -/
def main (startGUI : List String → Int) (args : List String) : List Call × Int :=
  let p := parseArgs args [] none
  match p.outFileName with
  | none => ([Call.startGUI p.inFileNames], startGUI p.inFileNames)
  | some outFileName =>
    if p.inFileNames.isEmpty then ([Call.startGUI p.inFileNames], startGUI p.inFileNames)
    else (p.inFileNames.map Call.loadImage ++ [Call.sort, Call.savePFS outFileName], 0)

/-- The input list as the specification words it: the arguments that are
neither a "-o" nor the argument directly following a "-o", in command-line
order. A "-o" is an argument "-o" that is not itself the argument directly
following a "-o"; `afterDashO` says whether the argument before the list is
one. -/
def claimedInputs (afterDashO : Bool) : List String → List String
  | [] => []
  | a :: rest =>
    if afterDashO then claimedInputs false rest
    else if a = "-o" then claimedInputs true rest
    else a :: claimedInputs false rest

/-- The output paths as the specification words it: the arguments directly
following a "-o", in command-line order, with "-o" and `afterDashO` as in
`claimedInputs`. -/
def claimedOutputs (afterDashO : Bool) : List String → List String
  | [] => []
  | a :: rest =>
    if afterDashO then a :: claimedOutputs false rest
    else if a = "-o" then claimedOutputs true rest
    else claimedOutputs false rest

/-! ## A small stack for examples -/

/-- A stack for the examples: its size, the scale last set, the threshold
and relative exposure last set, and the number of mask edits made. -/
structure ToyStack where
  width : Nat
  height : Nat
  scale : Int
  threshold : Int
  exposure : ℚ
  edits : Nat

/-- The operations of the example stack. Its pixel at `(col, row)` is
`(256 * col, 256 * row, 256 * edits)`. -/
def toyOps : ExposureStackOps ToyStack where
  setThreshold st _ t := { st with threshold := t }
  setRelativeExposure st _ re := { st with exposure := re }
  addPixels st _ _ _ _ := { st with edits := st.edits + 1 }
  removePixels st _ _ _ _ := { st with edits := st.edits + 1 }
  setScale st k := { st with scale := k }
  getWidth st := st.width
  getHeight st := st.height
  rgb st col row := ((256 * col : Nat), (256 * row : Nat), (256 * st.edits : Nat))

/-- An example stack of 4 by 3 pixels. -/
def toyStack : ToyStack :=
  { width := 4, height := 3, scale := 1, threshold := 65535, exposure := 1, edits := 0 }

/-- The render thread constructed on `toyStack` with gamma 1 (the floored
value for index `i` is `i`). -/
def toyThread : RenderThread ToyStack := RenderThread.create toyStack id

/-- An execution on the example thread in which `restart` is raised while
the worker renders the viewport region: the viewport is set to the 2 by 2
region at the origin (the scale changes, so `restart` is set), the worker
abandons its full pass and takes up the region, renders row 0 of it, and
then `setExposureThreshold` raises `restart`. -/
def restartDuringViewport : List Action :=
  [Action.setImageViewport 0 0 2 2 1, Action.run, Action.run, Action.run, Action.run, Action.run,
   Action.setExposureThreshold 0 100]

/-- An execution on the example thread in which `abort` is raised while the
worker renders the full image: the worker enters the full pass and renders
row 0 of 3, the destructor sets `abort`, and the worker takes two more
steps. -/
def abortDuringFull : List Action :=
  [Action.run, Action.run, Action.destroy, Action.run, Action.run]

/-- The point of `run` a `Pc` stands at, without the images. -/
inductive Place where
  | top
  | viewport (row : Nat)
  | full (row : Nat)
  | lock (row : Nat)
  | waiting
  | woken
  | finished
  deriving DecidableEq, Repr

/-- The point of `run` a `Pc` stands at. -/
def Pc.place : Pc → Place
  | Pc.top => Place.top
  | Pc.viewport row _ => Place.viewport row
  | Pc.full row _ _ _ => Place.full row
  | Pc.lock row _ _ => Place.lock row
  | Pc.waiting => Place.waiting
  | Pc.woken => Place.woken
  | Pc.finished => Place.finished

/-- The image a `Pc` inside a pass or at the lock carries. -/
def Pc.image : Pc → QImage
  | Pc.viewport _ a => a
  | Pc.full _ _ _ b => b
  | Pc.lock _ _ b => b
  | _ => QImage.create 0 0

/-- What the invariant says of the worker: a full pass in progress has not
run past its last row, and a full pass that left its loop before its last
row did so with `restart` set. -/
def FullPassOk (pc : Pc) (restart : Bool) : Prop :=
  match pc with
  | Pc.full row _ maxy _ => row ≤ maxy
  | Pc.lock row maxy _ => row = maxy ∨ restart = true
  | _ => True

/-- The invariant behind the delivery of full-image tiles: as long as
`abort` is clear, every full-image tile sent so far comes from a pass that
rendered all the rows it was asked for, and the worker is as `FullPassOk`
says. -/
def FullTilesComplete (rt : RenderThread σ) : Prop :=
  rt.abort = false →
    (∀ t ∈ rt.emitted, t.site = Site.full → t.rowsRendered = t.rowsRequested)
    ∧ FullPassOk rt.pc rt.restart

/-! ## The loops of `doRender` -/

section Loops

variable {σ : Type} (ops : ExposureStackOps σ) (images : σ) (gamma : Int → Int)

theorem store_pixels (image : QImage) (line pos : Nat) (c : QRgb) (l p : Nat) :
    (image.store line pos c).pixels l p
      = if l = line ∧ p = pos then some c else image.pixels l p := rfl

theorem doRenderCols_width (maxx row line : Nat) (fuel col pos : Nat) (image : QImage) :
    (doRenderCols ops images gamma maxx row line fuel col pos image).width = image.width
    ∧ (doRenderCols ops images gamma maxx row line fuel col pos image).height = image.height := by
  induction fuel generalizing col pos image with
  | zero => simp [doRenderCols]
  | succ fuel ih =>
    unfold doRenderCols
    split
    · rw [(ih _ _ _).1, (ih _ _ _).2]; simp [QImage.store]
    · simp

/-- The inner loop, given fuel for all its columns, fills the entries
`pos, ..., pos + (maxx - col) - 1` of `line` and leaves every other entry. -/
theorem doRenderCols_pixels (maxx row line : Nat) (fuel col pos : Nat) (image : QImage)
    (hfuel : maxx - col ≤ fuel) (l p : Nat) :
    (doRenderCols ops images gamma maxx row line fuel col pos image).pixels l p
      = if l = line ∧ pos ≤ p ∧ p < pos + (maxx - col)
        then some (renderPixel ops images gamma (col + (p - pos)) row)
        else image.pixels l p := by
  induction fuel generalizing col pos image with
  | zero =>
    have h3 : ¬ (pos ≤ p ∧ p < pos + (maxx - col)) := by omega
    simp [doRenderCols, h3]
  | succ fuel ih =>
    unfold doRenderCols
    by_cases hc : col < maxx
    · rw [if_pos hc, ih (col + 1) (pos + 1) _ (by omega), store_pixels]
      by_cases hl : l = line
      · by_cases hp : p = pos
        · subst hp
          have h1 : ¬ (p + 1 ≤ p) := by omega
          have h2 : p < p + (maxx - col) := by omega
          simp [hl, h1, h2]
        · by_cases hlt : pos + 1 ≤ p ∧ p < pos + 1 + (maxx - (col + 1))
          · have h3 : pos ≤ p ∧ p < pos + (maxx - col) := by omega
            have h4 : col + 1 + (p - (pos + 1)) = col + (p - pos) := by omega
            simp [hl, hlt, h3, h4]
          · have h3 : ¬ (pos ≤ p ∧ p < pos + (maxx - col)) := by omega
            simp [hl, hlt, h3, hp]
      · simp [hl]
    · rw [if_neg hc]
      have h0 : maxx - col = 0 := by omega
      have h3 : ¬ (pos ≤ p ∧ p < pos + (maxx - col)) := by omega
      simp [h3]

theorem doRenderRow_of_not_lt (flags : Flags) (minx miny maxx maxy : Nat) (ignoreRestart : Bool)
    (row : Nat) (image : QImage) (h : ¬ row < maxy) :
    doRenderRow ops images gamma flags minx miny maxx maxy ignoreRestart row image = RowStep.left := by
  simp [doRenderRow, h]

theorem doRenderRow_of_ok (flags : Flags) (minx miny maxx maxy : Nat) (ignoreRestart : Bool)
    (row : Nat) (image : QImage) (h : row < maxy)
    (hr : flags.restart = false ∨ ignoreRestart = true) (ha : flags.abort = false) :
    doRenderRow ops images gamma flags minx miny maxx maxy ignoreRestart row image
      = RowStep.rendered
          (doRenderCols ops images gamma maxx row (row - miny) (maxx - minx) minx 0 image) := by
  rcases hr with hr | hr <;> simp [doRenderRow, h, hr, ha]

/-- An iteration that renders its row has passed the loop test and has
read `abort` clear. -/
theorem doRenderRow_rendered (flags : Flags) (minx miny maxx maxy : Nat) (ignoreRestart : Bool)
    (row : Nat) (image image1 : QImage)
    (h : doRenderRow ops images gamma flags minx miny maxx maxy ignoreRestart row image
      = RowStep.rendered image1) :
    image1 = doRenderCols ops images gamma maxx row (row - miny) (maxx - minx) minx 0 image
    ∧ row < maxy ∧ flags.abort = false ∧ (flags.restart = false ∨ ignoreRestart = true) := by
  unfold doRenderRow at h
  split at h
  · rename_i hc
    split at h
    · cases h
    · rename_i hab
      simp only [Bool.and_eq_true, Bool.or_eq_true, Bool.not_eq_true', decide_eq_true_eq] at hc
      refine ⟨?_, hc.2, by simpa using hab, hc.1⟩
      injection h with h
      exact h.symm
  · cases h

/-- With `ignoreRestart` set, an iteration does not read `restart`. -/
theorem doRenderRow_ignoreRestart (f1 f2 : Flags) (minx miny maxx maxy : Nat)
    (row : Nat) (image : QImage) (ha : f1.abort = f2.abort) :
    doRenderRow ops images gamma f1 minx miny maxx maxy true row image
      = doRenderRow ops images gamma f2 minx miny maxx maxy true row image := by
  simp [doRenderRow, ha]

/-- The outer loop needs no more fuel than `maxy - row`: with that much or
more it gives the same result. -/
theorem doRenderRows_fuel (flags : Nat → Flags) (minx miny maxx maxy : Nat) (ignoreRestart : Bool)
    (fuel1 fuel2 row : Nat) (image : QImage) (h1 : maxy - row ≤ fuel1) (h2 : maxy - row ≤ fuel2) :
    doRenderRows ops images gamma flags minx miny maxx maxy ignoreRestart fuel1 row image
      = doRenderRows ops images gamma flags minx miny maxx maxy ignoreRestart fuel2 row image := by
  induction fuel1 generalizing fuel2 row image with
  | zero =>
    have hlt : ¬ row < maxy := by omega
    cases fuel2 with
    | zero => rfl
    | succ fuel2 =>
      simp [doRenderRows, doRenderRow_of_not_lt ops images gamma _ _ _ _ _ _ _ _ hlt]
  | succ fuel1 ih =>
    cases fuel2 with
    | zero =>
      have hlt : ¬ row < maxy := by omega
      simp [doRenderRows, doRenderRow_of_not_lt ops images gamma _ _ _ _ _ _ _ _ hlt]
    | succ fuel2 =>
      simp only [doRenderRows]
      cases doRenderRow ops images gamma (flags row) minx miny maxx maxy ignoreRestart row image with
      | rendered image1 => exact ih fuel2 (row + 1) image1 (by omega) (by omega)
      | left => rfl
      | returned => rfl

/-- The loop variable never goes back. -/
theorem doRenderRows_row_ge (flags : Nat → Flags) (minx miny maxx maxy : Nat) (ignoreRestart : Bool)
    (fuel row : Nat) (image : QImage) :
    row ≤ (doRenderRows ops images gamma flags minx miny maxx maxy ignoreRestart fuel row image).row := by
  induction fuel generalizing row image with
  | zero => simp [doRenderRows]
  | succ fuel ih =>
    simp only [doRenderRows]
    cases doRenderRow ops images gamma (flags row) minx miny maxx maxy ignoreRestart row image with
    | rendered image1 => exact Nat.le_trans (Nat.le_succ row) (ih (row + 1) image1)
    | left => exact Nat.le_refl _
    | returned => exact Nat.le_refl _

/-- A pass whose loop test succeeds at every row and that never reads
`abort` set runs through to `maxy` and fills every row of the region. -/
theorem doRenderRows_complete (flags : Nat → Flags) (minx miny maxx maxy : Nat)
    (ignoreRestart : Bool) (fuel row : Nat) (image : QImage)
    (hfuel : maxy - row ≤ fuel) (hrow : miny ≤ row) (hle : row ≤ maxy)
    (hr : ∀ r, row ≤ r → r < maxy → (flags r).restart = false ∨ ignoreRestart = true)
    (ha : ∀ r, row ≤ r → r < maxy → (flags r).abort = false) :
    (doRenderRows ops images gamma flags minx miny maxx maxy ignoreRestart fuel row image).row = maxy
    ∧ ∀ l p,
      (doRenderRows ops images gamma flags minx miny maxx maxy ignoreRestart fuel row image).image.pixels l p
        = if row ≤ l + miny ∧ l + miny < maxy ∧ p < maxx - minx
          then some (renderPixel ops images gamma (minx + p) (l + miny))
          else image.pixels l p := by
  induction fuel generalizing row image with
  | zero =>
    have hEq : row = maxy := by omega
    refine ⟨by simp [doRenderRows, hEq], ?_⟩
    intro l p
    have h3 : ¬ (row ≤ l + miny ∧ l + miny < maxy ∧ p < maxx - minx) := by omega
    simp [doRenderRows, h3]
  | succ fuel ih =>
    by_cases hlt : row < maxy
    · have hstep := doRenderRow_of_ok ops images gamma (flags row) minx miny maxx maxy
        ignoreRestart row image hlt (hr row (Nat.le_refl _) hlt) (ha row (Nat.le_refl _) hlt)
      simp only [doRenderRows, hstep]
      have hrec := ih (row + 1)
        (doRenderCols ops images gamma maxx row (row - miny) (maxx - minx) minx 0 image)
        (by omega) (by omega) (by omega)
        (fun r h1 h2 => hr r (by omega) h2) (fun r h1 h2 => ha r (by omega) h2)
      refine ⟨hrec.1, ?_⟩
      intro l p
      rw [hrec.2 l p, doRenderCols_pixels ops images gamma maxx row (row - miny) (maxx - minx)
        minx 0 image (Nat.le_refl _) l p]
      by_cases hl : l = row - miny
      · subst hl
        have h5 : row - miny + miny = row := by omega
        rw [h5]
        by_cases hp : p < maxx - minx
        · simp [hlt, hp]
        · simp [hp]
      · by_cases hnext : row + 1 ≤ l + miny ∧ l + miny < maxy ∧ p < maxx - minx
        · have h7 : row ≤ l + miny ∧ l + miny < maxy ∧ p < maxx - minx := by omega
          simp [hnext, h7]
        · have h7 : ¬ (row ≤ l + miny ∧ l + miny < maxy ∧ p < maxx - minx) := by omega
          simp [hnext, h7, hl]
    · have hEq : row = maxy := by omega
      simp only [doRenderRows, doRenderRow_of_not_lt ops images gamma _ _ _ _ _ _ _ _ hlt]
      refine ⟨hEq, ?_⟩
      intro l p
      have h3 : ¬ (row ≤ l + miny ∧ l + miny < maxy ∧ p < maxx - minx) := by omega
      simp [h3]

/-- With `ignoreRestart` set, the loop gives the same result under any two
schedules that agree on `abort`. -/
theorem doRenderRows_ignoreRestart (flags1 flags2 : Nat → Flags) (minx miny maxx maxy : Nat)
    (fuel row : Nat) (image : QImage) (ha : ∀ r, (flags1 r).abort = (flags2 r).abort) :
    doRenderRows ops images gamma flags1 minx miny maxx maxy true fuel row image
      = doRenderRows ops images gamma flags2 minx miny maxx maxy true fuel row image := by
  induction fuel generalizing row image with
  | zero => rfl
  | succ fuel ih =>
    simp only [doRenderRows]
    rw [doRenderRow_ignoreRestart ops images gamma (flags1 row) (flags2 row) minx miny maxx maxy
      row image (ha row)]
    cases doRenderRow ops images gamma (flags2 row) minx miny maxx maxy true row image with
    | rendered image1 => exact ih (row + 1) image1
    | left => rfl
    | returned => rfl

/-- The loops only store pixels: the size of the image stays. -/
theorem doRenderRows_size (flags : Nat → Flags) (minx miny maxx maxy : Nat) (ignoreRestart : Bool)
    (fuel row : Nat) (image : QImage) :
    (doRenderRows ops images gamma flags minx miny maxx maxy ignoreRestart fuel row image).image.width
        = image.width
    ∧ (doRenderRows ops images gamma flags minx miny maxx maxy ignoreRestart fuel row image).image.height
        = image.height := by
  induction fuel generalizing row image with
  | zero => simp [doRenderRows]
  | succ fuel ih =>
    simp only [doRenderRows]
    cases hstep : doRenderRow ops images gamma (flags row) minx miny maxx maxy ignoreRestart row
        image with
    | rendered image1 =>
      have h := doRenderRow_rendered ops images gamma _ _ _ _ _ _ _ _ _ hstep
      simp only
      rw [(ih _ _).1, (ih _ _).2, h.1]
      exact doRenderCols_width ops images gamma maxx row (row - miny) (maxx - minx) minx 0 image
    | left => simp
    | returned => simp

/-- A pass with `ignoreRestart` set that never reads `abort` set: the loop
variable ends at `maxy` (or stays at `miny` when the region is empty), every
row and column of the region has been rendered, and nothing else is
written. -/
theorem doRender_ignoreRestart_complete (flags : Nat → Flags) (minx miny maxx maxy : Nat)
    (image : QImage) (ha : ∀ r, (flags r).abort = false) :
    (doRender ops images gamma flags minx miny maxx maxy image true).row = max miny maxy
    ∧ ∀ l p,
      (doRender ops images gamma flags minx miny maxx maxy image true).image.pixels l p
        = if l + miny < maxy ∧ p < maxx - minx
          then some (renderPixel ops images gamma (minx + p) (l + miny))
          else image.pixels l p := by
  by_cases hle : miny ≤ maxy
  · have h := doRenderRows_complete ops images gamma flags minx miny maxx maxy true
      (maxy - miny) miny image (Nat.le_refl _) (Nat.le_refl _) hle
      (fun _ _ _ => Or.inr rfl) (fun r _ _ => ha r)
    refine ⟨by rw [doRender, h.1, Nat.max_eq_right hle], ?_⟩
    intro l p
    rw [doRender, h.2 l p]
    have h1 : miny ≤ l + miny := by omega
    simp [h1]
  · have h0 : maxy - miny = 0 := by omega
    refine ⟨?_, ?_⟩
    · rw [doRender, h0]
      simp only [doRenderRows]
      omega
    · intro l p
      have h3 : ¬ (l + miny < maxy ∧ p < maxx - minx) := by omega
      rw [doRender, h0]
      simp [doRenderRows, h3]

end Loops

/-! ## The control side -/

section Control

variable {σ : Type} (ops : ExposureStackOps σ)

theorem thresholdArg_eq (th : Int) : thresholdArg th = (th + 1) * 256 - 1 := by
  have h := Int.shiftLeft_eq_mul_pow (th + 1) 8
  simp only [thresholdArg]
  norm_num at h
  rw [h]

theorem wakeOne_restart (rt : RenderThread σ) : (wakeOne rt).restart = rt.restart := rfl

theorem wakeOne_wakeups (rt : RenderThread σ) : (wakeOne rt).wakeups = rt.wakeups + 1 := rfl

/-- C4: for an 8-bit level `th`, `setExposureThreshold(i, th)` hands the
stack the 16-bit threshold `(th + 1) * 256 - 1`: it lies in 255..65535, its
high byte is `th` and it is the largest 16-bit value with that high byte; it
is strictly increasing in `th`, one step of `th` raising it by exactly 256. -/
theorem setExposureThreshold_passes_threshold (rt : RenderThread σ) (i th : Int)
    (h0 : 0 ≤ th) (h1 : th ≤ 255) :
    (setExposureThreshold ops rt i th).images = ops.setThreshold rt.images i ((th + 1) * 256 - 1)
    ∧ thresholdArg th = (th + 1) * 256 - 1
    ∧ 255 ≤ thresholdArg th ∧ thresholdArg th ≤ 65535
    ∧ thresholdArg th / 256 = th
    ∧ (∀ v : Int, 0 ≤ v → v ≤ 65535 → v / 256 = th → v ≤ thresholdArg th)
    ∧ thresholdArg (th + 1) = thresholdArg th + 256
    ∧ (∀ th2 : Int, th < th2 → thresholdArg th < thresholdArg th2) := by
  have he := thresholdArg_eq th
  refine ⟨?_, he, ?_, ?_, ?_, ?_, ?_, ?_⟩
  · show ops.setThreshold rt.images i (thresholdArg th) = _
    rw [he]
  · omega
  · omega
  · omega
  · intro v _ _ hv
    omega
  · rw [thresholdArg_eq, he]; ring
  · intro th2 hlt
    rw [thresholdArg_eq th2, he]
    omega

/-- An instance of `setExposureThreshold_passes_threshold`: level 128 is
handed to the stack as 33023, which is `0x80ff`. -/
theorem setExposureThreshold_passes_threshold_witness :
    ((0 : Int) ≤ 128 ∧ (128 : Int) ≤ 255)
    ∧ (setExposureThreshold toyOps toyThread 0 128).images
      = toyOps.setThreshold toyThread.images 0 ((128 + 1) * 256 - 1)
    ∧ thresholdArg 128 = (128 + 1) * 256 - 1
    ∧ (setExposureThreshold toyOps toyThread 0 128).images.threshold = 33023 :=
  ⟨⟨by decide, by decide⟩,
   (setExposureThreshold_passes_threshold toyOps toyThread 0 128 (by decide) (by decide)).1,
   (setExposureThreshold_passes_threshold toyOps toyThread 0 128 (by decide) (by decide)).2.1,
   by decide⟩

/-- C5, as amended: `setExposureThreshold` and `setExposureRelativeEV`
always set `restart` and signal the condition; `setImageViewport` sets
`restart` only when `newScale` differs from the current scale, whatever `x`,
`y`, `w` and `h` are, and it signals exactly when `restart` is set once it
has stored the region. -/
theorem setters_restart (rt : RenderThread σ) (i th : Int) (re : ℚ) (x y w h newScale : Int) :
    ((setExposureThreshold ops rt i th).restart = true
      ∧ (setExposureThreshold ops rt i th).wakeups = rt.wakeups + 1)
    ∧ ((setExposureRelativeEV ops rt i re).restart = true
      ∧ (setExposureRelativeEV ops rt i re).wakeups = rt.wakeups + 1)
    ∧ ((setImageViewport rt x y w h newScale).restart
        = (rt.restart || decide (newScale ≠ rt.scale))
      ∧ (setImageViewport rt x y w h newScale).wakeups
        = (if (rt.restart || decide (newScale ≠ rt.scale)) then rt.wakeups + 1 else rt.wakeups)
      ∧ (setImageViewport rt x y w h newScale).minx = toU32 x
      ∧ (setImageViewport rt x y w h newScale).miny = toU32 y
      ∧ (setImageViewport rt x y w h newScale).maxx = toU32 (x + w)
      ∧ (setImageViewport rt x y w h newScale).maxy = toU32 (y + h)
      ∧ (setImageViewport rt x y w h newScale).scale = newScale) := by
  refine ⟨⟨rfl, rfl⟩, ⟨rfl, rfl⟩, ?_⟩
  by_cases hs : newScale = rt.scale
  · cases hr : rt.restart <;> simp [setImageViewport, hs, hr, wakeOne]
  · cases hr : rt.restart <;> simp [setImageViewport, hs, hr, wakeOne]

/-- C5 fails as stated: on the freshly constructed thread (`restart` clear,
scale 0) the call `setImageViewport(1, 1, 2, 2, 0)` moves the region and
leaves `restart` clear and the condition unsignalled. -/
theorem setImageViewport_without_restart :
    (setImageViewport toyThread 1 1 2 2 0).restart = false
    ∧ (setImageViewport toyThread 1 1 2 2 0).wakeups = toyThread.wakeups
    ∧ (setImageViewport toyThread 1 1 2 2 0).minx = 1
    ∧ toyThread.minx = 0
    ∧ (setImageViewport toyThread 1 1 2 2 0).maxx = 3
    ∧ toyThread.maxx = 0 := by
  decide

end Control

/-! ## The integer part of `setGamma`

The floating-point value `floored i` is a parameter of `setGamma`; what the
source does with it is the arithmetic shift by 8 bits. -/

section Gamma

variable {σ : Type}

theorem setGamma_entry (floored : Int → Int) (rt : RenderThread σ) (i : Int)
    (h0 : 0 ≤ i) (h1 : i < 65536) : (setGamma floored rt).gamma i = floored i / 256 := by
  have h := Int.shiftRight_eq_div_pow (floored i) 8
  norm_num at h
  simp [setGamma, h0, h1, h]

/-- The shift keeps the order of the floored values. -/
theorem setGamma_monotone_of_floored (floored : Int → Int) (rt : RenderThread σ)
    (hmono : ∀ i j, 0 ≤ i → i ≤ j → j < 65536 → floored i ≤ floored j)
    (i j : Int) (h0 : 0 ≤ i) (hij : i ≤ j) (h1 : j < 65536) :
    (setGamma floored rt).gamma i ≤ (setGamma floored rt).gamma j := by
  rw [setGamma_entry floored rt i h0 (by omega), setGamma_entry floored rt j (by omega) h1]
  exact Int.ediv_le_ediv (by decide) (hmono i j h0 hij h1)

/-- An entry is an 8-bit value exactly when the floored value is a 16-bit
value; the source has no clamp of its own. -/
theorem setGamma_entry_range (floored : Int → Int) (rt : RenderThread σ) (i : Int)
    (h0 : 0 ≤ i) (h1 : i < 65536) :
    (0 ≤ (setGamma floored rt).gamma i ∧ (setGamma floored rt).gamma i ≤ 255)
      ↔ (0 ≤ floored i ∧ floored i ≤ 65535) := by
  rw [setGamma_entry floored rt i h0 h1]
  omega

/-- With the floored value of index `i` equal to `i` (gamma 1 computed
exactly) the entry is `i div 256`. -/
theorem setGamma_identity (rt : RenderThread σ) (i : Int) (h0 : 0 ≤ i) (h1 : i < 65536) :
    (setGamma id rt).gamma i = i / 256 :=
  setGamma_entry id rt i h0 h1

end Gamma

/-! ## Who clears `restart` -/

section Restart

variable {σ : Type} (ops : ExposureStackOps σ)

theorem setImageViewport_restart (rt : RenderThread σ) (x y w h newScale : Int) :
    (setImageViewport rt x y w h newScale).restart = (rt.restart || decide (newScale ≠ rt.scale)) := by
  by_cases hs : newScale = rt.scale
  · cases hr : rt.restart <;> simp [setImageViewport, hs, hr, wakeOne]
  · cases hr : rt.restart <;> simp [setImageViewport, hs, hr, wakeOne]

theorem renderPatch_restart (rt : RenderThread σ) (images : σ) (x y radius : Int) :
    (renderPatch ops rt images x y radius).restart = rt.restart := rfl

/-- A step of the worker thread that finds `restart` set and leaves it clear
is the re-read of lines 145 to 151. -/
theorem run_clears_restart (rt : RenderThread σ) (h1 : rt.restart = true)
    (h2 : (run ops rt).restart = false) : run ops rt = reread ops rt := by
  unfold run at h2 ⊢
  cases hpc : rt.pc with
  | top =>
    rw [hpc] at h2
    simp only at h2
    split at h2
    · simp [h1] at h2
    · split at h2 <;> simp [enterFull, h1] at h2
  | viewport row a =>
    rw [hpc] at h2
    simp only at h2
    split at h2 <;> simp [enterFull, emitViewport, h1] at h2
  | full row maxx maxy b =>
    rw [hpc] at h2
    simp only at h2
    split at h2 <;> simp [h1] at h2
  | lock row maxy b => simp [h1]
  | waiting =>
    rw [hpc] at h2
    simp [h1] at h2
  | woken => rfl
  | finished =>
    rw [hpc] at h2
    simp [h1] at h2

/-- C8: `restart` is cleared exactly where the worker takes up the new
parameters. After the re-read of `run` (lines 145 to 151) `restart` is
clear, `_minx` to `_maxy` equal the shared region and the stack has been
given the shared scale; a step that finds `restart` set and leaves it clear
is that re-read by the worker; none of `setGamma`, `setExposureThreshold`,
`setExposureRelativeEV`, `setImageViewport`, `addPixels` and `removePixels`
clears `restart`. -/
theorem restart_cleared_exactly_by_reread (rt : RenderThread σ) :
    ((reread ops rt).restart = false
      ∧ (reread ops rt)._minx = (reread ops rt).minx
      ∧ (reread ops rt)._miny = (reread ops rt).miny
      ∧ (reread ops rt)._maxx = (reread ops rt).maxx
      ∧ (reread ops rt)._maxy = (reread ops rt).maxy
      ∧ (reread ops rt).minx = rt.minx ∧ (reread ops rt).miny = rt.miny
      ∧ (reread ops rt).maxx = rt.maxx ∧ (reread ops rt).maxy = rt.maxy
      ∧ (reread ops rt).scale = rt.scale
      ∧ (reread ops rt).images = ops.setScale rt.images (reread ops rt).scale
      ∧ ∀ getScale : σ → Int, (∀ st k, getScale (ops.setScale st k) = k) →
          getScale (reread ops rt).images = (reread ops rt).scale)
    ∧ (∀ a : Action, rt.restart = true → (step ops rt a).restart = false →
        a = Action.run ∧ step ops rt a = reread ops rt)
    ∧ (∀ floored, (setGamma floored rt).restart = rt.restart)
    ∧ (∀ i th, (setExposureThreshold ops rt i th).restart = true)
    ∧ (∀ i re, (setExposureRelativeEV ops rt i re).restart = true)
    ∧ (∀ x y w h newScale, rt.restart = true →
        (setImageViewport rt x y w h newScale).restart = true)
    ∧ (∀ i x y radius, (addPixels ops rt i x y radius).restart = rt.restart)
    ∧ (∀ i x y radius, (removePixels ops rt i x y radius).restart = rt.restart) := by
  refine ⟨⟨rfl, rfl, rfl, rfl, rfl, rfl, rfl, rfl, rfl, rfl, rfl, ?_⟩, ?_, fun _ => rfl,
    fun _ _ => rfl, fun _ _ => rfl, ?_, fun _ _ _ _ => rfl, fun _ _ _ _ => rfl⟩
  · intro getScale hget
    exact hget rt.images rt.scale
  · intro a h1 h2
    cases a with
    | setGamma floored => simp [step, setGamma, h1] at h2
    | setExposureThreshold i th => simp [step, setExposureThreshold, wakeOne] at h2
    | setExposureRelativeEV i re => simp [step, setExposureRelativeEV, wakeOne] at h2
    | setImageViewport x y w h newScale =>
      simp [step, setImageViewport_restart, h1] at h2
    | addPixels i x y radius => simp [step, addPixels, renderPatch_restart, h1] at h2
    | removePixels i x y radius => simp [step, removePixels, renderPatch_restart, h1] at h2
    | destroy => simp [step, destroy, wakeOne, h1] at h2
    | run => exact ⟨rfl, run_clears_restart ops rt h1 h2⟩
  · intro x y w h newScale h1
    rw [setImageViewport_restart, h1]
    rfl

/-- An instance of `restart_cleared_exactly_by_reread`: once the viewport
has been set on the example thread and the worker has left its full pass,
the worker stands at the lock with `restart` set; its next step clears
`restart`, and that step is the re-read. -/
theorem restart_cleared_exactly_by_reread_witness :
    (exec toyOps toyThread [Action.setImageViewport 0 0 2 2 1, Action.run, Action.run]).restart = true
    ∧ (step toyOps
        (exec toyOps toyThread [Action.setImageViewport 0 0 2 2 1, Action.run, Action.run])
        Action.run).restart = false
    ∧ step toyOps
        (exec toyOps toyThread [Action.setImageViewport 0 0 2 2 1, Action.run, Action.run])
        Action.run
      = reread toyOps
        (exec toyOps toyThread [Action.setImageViewport 0 0 2 2 1, Action.run, Action.run]) :=
  ⟨by decide, by decide,
   ((restart_cleared_exactly_by_reread toyOps
      (exec toyOps toyThread [Action.setImageViewport 0 0 2 2 1, Action.run, Action.run])).2.1
      Action.run (by decide) (by decide)).2⟩

end Restart

/-! ## The command line -/

section CommandLine

/-- The loop adds to `inFileNames` the arguments that are neither a "-o" nor
directly after one, and leaves in `outFileName` the last argument that
stands directly after a "-o", if there is one. -/
theorem parseArgs_eq (args : List String) (ins : List String) (out : Option String) :
    parseArgs args ins out
      = { inFileNames := ins ++ claimedInputs false args
          outFileName := ((claimedOutputs false args).getLast?).or out } := by
  induction args, ins, out using parseArgs.induct with
  | case1 ins out => simp [parseArgs, claimedInputs, claimedOutputs]
  | case2 ins out => simp [parseArgs, claimedInputs, claimedOutputs]
  | case3 a ins out ha => simp [parseArgs, claimedInputs, claimedOutputs, ha]
  | case4 b rest ins out ih =>
    have e1 : claimedInputs false ("-o" :: b :: rest) = claimedInputs false rest := by
      simp [claimedInputs]
    have e2 : claimedOutputs false ("-o" :: b :: rest) = b :: claimedOutputs false rest := by
      simp [claimedOutputs]
    rw [parseArgs, if_pos rfl, ih, e1, e2, List.getLast?_cons]
    cases (claimedOutputs false rest).getLast? <;> simp
  | case5 a b rest ins out ha ih =>
    have e1 : claimedInputs false (a :: b :: rest) = a :: claimedInputs false (b :: rest) := by
      simp [claimedInputs, ha]
    have e2 : claimedOutputs false (a :: b :: rest) = claimedOutputs false (b :: rest) := by
      simp [claimedOutputs, ha]
    rw [parseArgs, if_neg ha, ih, e1, e2]
    simp

/-- C9: for every argument vector, the inputs of `main` are the arguments
that are neither a "-o" nor the argument directly following a "-o", in
command-line order, and the output path is the argument following a "-o"
(the last such argument when there are several). When there is an output
path and at least one input, `main` loads each input in order, then calls
`sort` once, then `savePFS` once with the output path, and returns 0; in
every other case (no "-o", only a trailing "-o" with no path, or no inputs)
it hands the input list to `startGUI` and returns its status. `startGUI` is
called exactly in those other cases. -/
theorem main_batch_or_gui (startGUI : List String → Int) (args : List String) :
    (parseArgs args [] none).inFileNames = claimedInputs false args
    ∧ (parseArgs args [] none).outFileName = (claimedOutputs false args).getLast?
    ∧ (∀ o, (claimedOutputs false args).getLast? = some o → claimedInputs false args ≠ [] →
        main startGUI args
          = ((claimedInputs false args).map Call.loadImage ++ [Call.sort, Call.savePFS o], 0))
    ∧ ((claimedOutputs false args).getLast? = none ∨ claimedInputs false args = [] →
        main startGUI args
          = ([Call.startGUI (claimedInputs false args)], startGUI (claimedInputs false args)))
    ∧ ((∃ names, Call.startGUI names ∈ (main startGUI args).1)
        ↔ ((claimedOutputs false args).getLast? = none ∨ claimedInputs false args = [])) := by
  have hp := parseArgs_eq args [] none
  have hbatch : ∀ o, (claimedOutputs false args).getLast? = some o →
      claimedInputs false args ≠ [] →
      main startGUI args
        = ((claimedInputs false args).map Call.loadImage ++ [Call.sort, Call.savePFS o], 0) := by
    intro o ho hne
    simp [main, hp, ho, hne]
  have hgui : (claimedOutputs false args).getLast? = none ∨ claimedInputs false args = [] →
      main startGUI args
        = ([Call.startGUI (claimedInputs false args)], startGUI (claimedInputs false args)) := by
    intro hcase
    rcases hcase with hnone | hemp
    · simp [main, hp, hnone]
    · cases hout : (claimedOutputs false args).getLast? with
      | none => simp [main, hp, hout]
      | some o => simp [main, hp, hout, hemp]
  refine ⟨by simp [hp], by simp [hp], hbatch, hgui, ?_⟩
  constructor
  · rintro ⟨names, hmem⟩
    cases hout : (claimedOutputs false args).getLast? with
    | none => exact Or.inl rfl
    | some o =>
      by_cases hemp : claimedInputs false args = []
      · exact Or.inr hemp
      · rw [hbatch o hout hemp] at hmem
        simp at hmem
  · intro hcase
    exact ⟨claimedInputs false args, by rw [hgui hcase]; simp⟩

/-- Instances of `main_batch_or_gui`: `a.tif -o out.pfs b.tif` is merged
non-interactively; so is `-o -o x`, where the second "-o" is the argument
following the first and so the output path, and `x` is an input; `a.tif -o`
and `-o out.pfs` go to the interactive shell. -/
theorem main_batch_or_gui_witness :
    main (fun _ => 1) ["a.tif", "-o", "out.pfs", "b.tif"]
      = ([Call.loadImage "a.tif", Call.loadImage "b.tif", Call.sort, Call.savePFS "out.pfs"], 0)
    ∧ main (fun _ => 1) ["-o", "-o", "x"]
      = ([Call.loadImage "x", Call.sort, Call.savePFS "-o"], 0)
    ∧ main (fun _ => 1) ["a.tif", "-o"] = ([Call.startGUI ["a.tif"]], 1)
    ∧ main (fun _ => 1) ["-o", "out.pfs"] = ([Call.startGUI []], 1) := by
  have h1 := (main_batch_or_gui (fun _ => 1) ["a.tif", "-o", "out.pfs", "b.tif"]).2.2.1
    "out.pfs" (by decide) (by decide)
  have h2 := (main_batch_or_gui (fun _ => 1) ["-o", "-o", "x"]).2.2.1 "-o" (by decide) (by decide)
  have h3 := (main_batch_or_gui (fun _ => 1) ["a.tif", "-o"]).2.2.2.1 (Or.inl (by decide))
  have h4 := (main_batch_or_gui (fun _ => 1) ["-o", "out.pfs"]).2.2.2.1 (Or.inr (by decide))
  refine ⟨?_, ?_, ?_, ?_⟩
  · rw [h1]; decide
  · rw [h2]; decide
  · rw [h3]; decide
  · rw [h4]; decide

end CommandLine

/-! ## Patch renders -/

section Patch

variable {σ : Type} (ops : ExposureStackOps σ)

theorem toU32_of_nonneg (z : Int) (h0 : 0 ≤ z) (h1 : z < 4294967296) : ((toU32 z : Nat) : Int) = z := by
  unfold toU32
  rw [Int.emod_eq_of_lt h0 h1]
  exact Int.toNat_of_nonneg h0

/-- C7, as amended: a `doRender` pass with `ignoreRestart = true` does not
depend on `restart`. Under any two schedules of the flags that agree on
`abort` it leaves the same image and loop variable, whether `restart` is
clear, set, or raised at some row; and as long as it never reads `abort`
set, it visits every row `miny..maxy-1` and every column `minx..maxx-1` of
the region and writes nothing else. -/
theorem doRender_patch_ignores_restart (images : σ) (gamma : Int → Int)
    (flags1 flags2 : Nat → Flags) (minx miny maxx maxy : Nat) (image : QImage) :
    ((∀ r, (flags1 r).abort = (flags2 r).abort) →
      doRender ops images gamma flags1 minx miny maxx maxy image true
        = doRender ops images gamma flags2 minx miny maxx maxy image true)
    ∧ ((∀ r, (flags1 r).abort = false) →
      (doRender ops images gamma flags1 minx miny maxx maxy image true).row = max miny maxy
      ∧ (∀ r c, miny ≤ r → r < maxy → minx ≤ c → c < maxx →
          (doRender ops images gamma flags1 minx miny maxx maxy image true).image.pixels
              (r - miny) (c - minx)
            = some (renderPixel ops images gamma c r))
      ∧ (∀ l p, ¬ (l + miny < maxy ∧ p < maxx - minx) →
          (doRender ops images gamma flags1 minx miny maxx maxy image true).image.pixels l p
            = image.pixels l p)) := by
  refine ⟨fun ha => ?_, fun ha => ?_⟩
  · exact doRenderRows_ignoreRestart ops images gamma flags1 flags2 minx miny maxx maxy _ _ _ ha
  · have h := doRender_ignoreRestart_complete ops images gamma flags1 minx miny maxx maxy image ha
    refine ⟨h.1, ?_, ?_⟩
    · intro r c h1 h2 h3 h4
      have h5 : r - miny + miny < maxy ∧ c - minx < maxx - minx := by omega
      have h6 : minx + (c - minx) = c := by omega
      have h7 : r - miny + miny = r := by omega
      rw [h.2, if_pos h5, h6, h7]
    · intro l p hn
      rw [h.2, if_neg hn]

/-- An instance of `doRender_patch_ignores_restart`: on the example stack a
2 by 2 patch comes out the same with `restart` clear throughout and with
`restart` raised from row 1 on, and its last pixel is rendered. -/
theorem doRender_patch_ignores_restart_witness :
    doRender toyOps toyStack toyThread.gamma (fun _ => { restart := false, abort := false })
        0 0 2 2 (QImage.create 2 2) true
      = doRender toyOps toyStack toyThread.gamma
          (fun r => { restart := decide (1 ≤ r), abort := false }) 0 0 2 2 (QImage.create 2 2) true
    ∧ (doRender toyOps toyStack toyThread.gamma (fun _ => { restart := false, abort := false })
        0 0 2 2 (QImage.create 2 2) true).image.pixels 1 1
      = some (renderPixel toyOps toyStack toyThread.gamma 1 1) :=
  ⟨(doRender_patch_ignores_restart toyOps toyStack toyThread.gamma
      (fun _ => { restart := false, abort := false })
      (fun r => { restart := decide (1 ≤ r), abort := false }) 0 0 2 2 (QImage.create 2 2)).1
      (fun _ => rfl),
   ((doRender_patch_ignores_restart toyOps toyStack toyThread.gamma
      (fun _ => { restart := false, abort := false })
      (fun _ => { restart := false, abort := false }) 0 0 2 2 (QImage.create 2 2)).2
      (fun _ => rfl)).2.1 1 1 (by decide) (by decide) (by decide) (by decide)⟩

/-- C7 fails as stated when `abort` is set: the pass returns at its first
row, so it visits no row of the region and leaves the tile unwritten. -/
theorem doRender_patch_aborted :
    (doRender toyOps toyStack toyThread.gamma (fun _ => { restart := false, abort := true })
        0 0 2 2 (QImage.create 2 2) true).row = 0
    ∧ (doRender toyOps toyStack toyThread.gamma (fun _ => { restart := false, abort := true })
        0 0 2 2 (QImage.create 2 2) true).image.pixels 0 0 = none
    ∧ (doRender toyOps toyStack toyThread.gamma (fun _ => { restart := false, abort := true })
        0 0 2 2 (QImage.create 2 2) true).image.pixels 1 1 = none := by
  decide

/-- The tile a patch render sends when the disc lies at non-negative
coordinates and `abort` is clear. -/
theorem renderPatch_tile (rt : RenderThread σ) (images : σ) (x y radius : Int)
    (hr : 0 ≤ radius) (hx : radius ≤ x) (hy : radius ≤ y)
    (hxb : x + radius + 1 < 2147483648) (hyb : y + radius + 1 < 2147483648)
    (hab : rt.abort = false) :
    (renderPatch ops rt images x y radius).images = images
    ∧ ∃ t, (renderPatch ops rt images x y radius).emitted = rt.emitted ++ [t]
      ∧ t.x = x - radius ∧ t.y = y - radius
      ∧ t.width = ops.getWidth images ∧ t.height = ops.getHeight images
      ∧ t.image.width = 2 * radius + 1 ∧ t.image.height = 2 * radius + 1
      ∧ t.rowsRendered = t.rowsRequested
      ∧ ∀ c r : Nat, (c : Int) < 2 * radius + 1 → (r : Int) < 2 * radius + 1 →
          t.image.pixels r c
            = some (qRgb
                (rt.gamma (truncInt (ops.rgb images ((x - radius).toNat + c) ((y - radius).toNat + r)).1))
                (rt.gamma (truncInt (ops.rgb images ((x - radius).toNat + c) ((y - radius).toNat + r)).2.1))
                (rt.gamma (truncInt (ops.rgb images ((x - radius).toNat + c) ((y - radius).toNat + r)).2.2))) := by
  have hminx := toU32_of_nonneg (x - radius) (by omega) (by omega)
  have hminy := toU32_of_nonneg (y - radius) (by omega) (by omega)
  have hmaxx := toU32_of_nonneg (x + radius + 1) (by omega) (by omega)
  have hmaxy := toU32_of_nonneg (y + radius + 1) (by omega) (by omega)
  have hcomp := doRender_ignoreRestart_complete ops images rt.gamma
    (fun _ => { restart := rt.restart, abort := rt.abort })
    (toU32 (x - radius)) (toU32 (y - radius)) (toU32 (x + radius + 1)) (toU32 (y + radius + 1))
    (QImage.create (2 * radius + 1) (2 * radius + 1)) (fun _ => hab)
  have hsize := doRenderRows_size ops images rt.gamma
    (fun _ => { restart := rt.restart, abort := rt.abort })
    (toU32 (x - radius)) (toU32 (y - radius)) (toU32 (x + radius + 1)) (toU32 (y + radius + 1)) true
    (toU32 (y + radius + 1) - toU32 (y - radius)) (toU32 (y - radius))
    (QImage.create (2 * radius + 1) (2 * radius + 1))
  refine ⟨rfl, _, rfl, rfl, rfl, rfl, rfl, hsize.1, hsize.2, ?_, ?_⟩
  · show (doRender _ _ _ _ _ _ _ _ _ _).row - toU32 (y - radius)
      = toU32 (y + radius + 1) - toU32 (y - radius)
    rw [hcomp.1]
    omega
  · intro c r hc hrow
    show (doRender _ _ _ _ _ _ _ _ _ _).image.pixels r c = _
    have hcond : r + toU32 (y - radius) < toU32 (y + radius + 1)
        ∧ c < toU32 (x + radius + 1) - toU32 (x - radius) := by omega
    have e1 : toU32 (x - radius) = (x - radius).toNat := by omega
    have e2 : toU32 (y - radius) = (y - radius).toNat := by omega
    rw [hcomp.2 r c, if_pos hcond, e1, e2, Nat.add_comm r]
    rfl

/-- C3, as amended: for a mask edit `addPixels` or `removePixels(i, x, y,
radius)` with `0 <= radius <= x`, `radius <= y`, `x + radius + 1` and
`y + radius + 1` within `int`, and `abort` clear, the signal sent has origin
`(x - radius, y - radius)`, the width and height of the stack, and a tile of
`(2*radius+1)` by `(2*radius+1)` pixels in which pixel `(c, r)` holds
`qRgb(gamma[R], gamma[G], gamma[B])` for the truncated triple `(R, G, B)`
the edited stack returns at `(x - radius + c, y - radius + r)`. -/
theorem mask_edit_tile (rt : RenderThread σ) (i x y radius : Int)
    (hr : 0 ≤ radius) (hx : radius ≤ x) (hy : radius ≤ y)
    (hxb : x + radius + 1 < 2147483648) (hyb : y + radius + 1 < 2147483648)
    (hab : rt.abort = false) :
    (∃ t, (addPixels ops rt i x y radius).emitted = rt.emitted ++ [t]
      ∧ t.x = x - radius ∧ t.y = y - radius
      ∧ t.width = ops.getWidth (ops.addPixels rt.images i x y radius)
      ∧ t.height = ops.getHeight (ops.addPixels rt.images i x y radius)
      ∧ t.image.width = 2 * radius + 1 ∧ t.image.height = 2 * radius + 1
      ∧ ∀ c r : Nat, (c : Int) < 2 * radius + 1 → (r : Int) < 2 * radius + 1 →
          t.image.pixels r c
            = some (qRgb
                (rt.gamma (truncInt (ops.rgb (ops.addPixels rt.images i x y radius)
                  ((x - radius).toNat + c) ((y - radius).toNat + r)).1))
                (rt.gamma (truncInt (ops.rgb (ops.addPixels rt.images i x y radius)
                  ((x - radius).toNat + c) ((y - radius).toNat + r)).2.1))
                (rt.gamma (truncInt (ops.rgb (ops.addPixels rt.images i x y radius)
                  ((x - radius).toNat + c) ((y - radius).toNat + r)).2.2))))
    ∧ (∃ t, (removePixels ops rt i x y radius).emitted = rt.emitted ++ [t]
      ∧ t.x = x - radius ∧ t.y = y - radius
      ∧ t.width = ops.getWidth (ops.removePixels rt.images i x y radius)
      ∧ t.height = ops.getHeight (ops.removePixels rt.images i x y radius)
      ∧ t.image.width = 2 * radius + 1 ∧ t.image.height = 2 * radius + 1
      ∧ ∀ c r : Nat, (c : Int) < 2 * radius + 1 → (r : Int) < 2 * radius + 1 →
          t.image.pixels r c
            = some (qRgb
                (rt.gamma (truncInt (ops.rgb (ops.removePixels rt.images i x y radius)
                  ((x - radius).toNat + c) ((y - radius).toNat + r)).1))
                (rt.gamma (truncInt (ops.rgb (ops.removePixels rt.images i x y radius)
                  ((x - radius).toNat + c) ((y - radius).toNat + r)).2.1))
                (rt.gamma (truncInt (ops.rgb (ops.removePixels rt.images i x y radius)
                  ((x - radius).toNat + c) ((y - radius).toNat + r)).2.2)))) := by
  constructor
  · obtain ⟨_, t, h1, h2, h3, h4, h5, h6, h7, _, h9⟩ :=
      renderPatch_tile ops rt (ops.addPixels rt.images i x y radius) x y radius hr hx hy hxb hyb hab
    exact ⟨t, h1, h2, h3, h4, h5, h6, h7, h9⟩
  · obtain ⟨_, t, h1, h2, h3, h4, h5, h6, h7, _, h9⟩ :=
      renderPatch_tile ops rt (ops.removePixels rt.images i x y radius) x y radius hr hx hy hxb hyb hab
    exact ⟨t, h1, h2, h3, h4, h5, h6, h7, h9⟩

/-- An instance of `mask_edit_tile`: `addPixels(0, 2, 1, 1)` on the example
thread sends a 3 by 3 tile at `(1, 0)` whose pixel `(2, 2)` is the mapped
source pixel `(3, 2)` of the edited stack. -/
theorem mask_edit_tile_witness :
    ((0 : Int) ≤ 1 ∧ (1 : Int) ≤ 2 ∧ (1 : Int) ≤ 1 ∧ toyThread.abort = false)
    ∧ ∃ t, (addPixels toyOps toyThread 0 2 1 1).emitted = toyThread.emitted ++ [t]
      ∧ t.x = 2 - 1 ∧ t.y = 1 - 1
      ∧ t.image.pixels 2 2
        = some (qRgb
            (toyThread.gamma (truncInt (toyOps.rgb (toyOps.addPixels toyThread.images 0 2 1 1)
              (((2 : Int) - 1).toNat + 2) (((1 : Int) - 1).toNat + 2)).1))
            (toyThread.gamma (truncInt (toyOps.rgb (toyOps.addPixels toyThread.images 0 2 1 1)
              (((2 : Int) - 1).toNat + 2) (((1 : Int) - 1).toNat + 2)).2.1))
            (toyThread.gamma (truncInt (toyOps.rgb (toyOps.addPixels toyThread.images 0 2 1 1)
              (((2 : Int) - 1).toNat + 2) (((1 : Int) - 1).toNat + 2)).2.2))) := by
  obtain ⟨t, h1, h2, h3, _, _, _, _, h8⟩ :=
    (mask_edit_tile toyOps toyThread 0 2 1 1 (by decide) (by decide) (by decide) (by decide)
      (by decide) rfl).1
  exact ⟨⟨by decide, by decide, by decide, rfl⟩, t, h1, h2, h3, h8 2 2 (by decide) (by decide)⟩

/-- C3 fails as stated for an edit with `x < radius`: `addPixels(0, 0, 0, 1)`
passes `x - radius = -1` to `doRender` as the `unsigned int` 4294967295, the
loops do not run, and the 3 by 3 tile that is sent has no pixel written; its
pixel `(1, 1)` is not the mapped source pixel `(0, 0)`. -/
theorem mask_edit_at_border_unrendered :
    (addPixels toyOps toyThread 0 0 0 1).emitted.map (fun t => (t.x, t.y))
      = [((-1 : Int), (-1 : Int))]
    ∧ (addPixels toyOps toyThread 0 0 0 1).emitted.map (fun t => (t.image.width, t.image.height))
      = [((3 : Int), (3 : Int))]
    ∧ (addPixels toyOps toyThread 0 0 0 1).emitted.map (fun t => t.rowsRendered) = [0]
    ∧ (addPixels toyOps toyThread 0 0 0 1).emitted.map (fun t => t.image.pixels 1 1) = [none]
    ∧ renderPixel toyOps (toyOps.addPixels toyThread.images 0 0 0 1) toyThread.gamma 0 0
      = 4278190081
    ∧ toyThread.abort = false
    ∧ toU32 (0 - 1) = 4294967295 := by
  decide

end Patch

/-! ## The worker thread -/

section Worker

variable {σ : Type} (ops : ExposureStackOps σ)

theorem runSteps_add (m n : Nat) (rt : RenderThread σ) :
    runSteps ops (m + n) rt = runSteps ops n (runSteps ops m rt) := by
  induction m generalizing rt with
  | zero => simp [runSteps]
  | succ m ih =>
    rw [Nat.succ_add]
    exact ih (run ops rt)

/-- Inside the viewport pass, below `_maxy` and with `abort` clear, a step
renders the row, whatever `restart` is. -/
theorem run_viewport_row (rt : RenderThread σ) (row : Nat) (a : QImage)
    (hpc : rt.pc = Pc.viewport row a) (hlt : row < rt._maxy) (ha : rt.abort = false) :
    run ops rt
      = { rt with
          pc := Pc.viewport (row + 1)
            (doRenderCols ops rt.images rt.gamma rt._maxx row (row - rt._miny)
              (rt._maxx - rt._minx) rt._minx 0 a) } := by
  have hstep := doRenderRow_of_ok ops rt.images rt.gamma
    { restart := rt.restart, abort := rt.abort } rt._minx rt._miny rt._maxx rt._maxy true row a
    hlt (Or.inr rfl) ha
  unfold run
  rw [hpc]
  simp only [hstep]

/-- At `_maxy` the viewport pass leaves its loop: the tile is sent and the
full pass is entered. -/
theorem run_viewport_end (rt : RenderThread σ) (row : Nat) (a : QImage)
    (hpc : rt.pc = Pc.viewport row a) (hge : ¬ row < rt._maxy) :
    run ops rt = enterFull ops (emitViewport ops rt row a) := by
  have hstep := doRenderRow_of_not_lt ops rt.images rt.gamma
    { restart := rt.restart, abort := rt.abort } rt._minx rt._miny rt._maxx rt._maxy true row a hge
  unfold run
  rw [hpc]
  simp only [hstep]

/-- Inside the full pass a step that reads `restart` set leaves the loop
without rendering the row. -/
theorem run_full_restart (rt : RenderThread σ) (row maxx maxy : Nat) (b : QImage)
    (hpc : rt.pc = Pc.full row maxx maxy b) (hr : rt.restart = true) :
    run ops rt = { rt with pc := Pc.lock row maxy b } := by
  unfold run
  rw [hpc]
  simp [doRenderRow, ignoreRestartDefault, hr]

/-- At the lock with `restart` set nothing is sent: the worker re-reads. -/
theorem run_lock_restart (rt : RenderThread σ) (row maxy : Nat) (b : QImage)
    (hpc : rt.pc = Pc.lock row maxy b) (hr : rt.restart = true) :
    run ops rt = reread ops rt := by
  unfold run
  rw [hpc]
  simp [hr]

/-- The viewport pass, run for `n` rows with `abort` clear, is the loop of
`doRender` with `ignoreRestart` set. -/
theorem runSteps_viewport (n : Nat) (rt : RenderThread σ) (row : Nat) (a : QImage)
    (hpc : rt.pc = Pc.viewport row a) (ha : rt.abort = false) (hn : row + n ≤ rt._maxy) :
    runSteps ops n rt
      = { rt with
          pc := Pc.viewport (row + n)
            (doRenderRows ops rt.images rt.gamma
              (fun _ => { restart := rt.restart, abort := rt.abort })
              rt._minx rt._miny rt._maxx rt._maxy true n row a).image } := by
  induction n generalizing rt row a with
  | zero =>
    cases rt
    simp only at hpc
    subst hpc
    rfl
  | succ n ih =>
    have hlt : row < rt._maxy := by omega
    have hstep := doRenderRow_of_ok ops rt.images rt.gamma
      { restart := rt.restart, abort := rt.abort } rt._minx rt._miny rt._maxx rt._maxy true row a
      hlt (Or.inr rfl) ha
    simp only [runSteps]
    have key := ih
      { rt with
        pc := Pc.viewport (row + 1)
          (doRenderCols ops rt.images rt.gamma rt._maxx row (row - rt._miny)
            (rt._maxx - rt._minx) rt._minx 0 a) }
      (row + 1)
      (doRenderCols ops rt.images rt.gamma rt._maxx row (row - rt._miny)
        (rt._maxx - rt._minx) rt._minx 0 a)
      rfl ha (by show row + 1 + n ≤ rt._maxy; omega)
    rw [run_viewport_row ops rt row a hpc hlt ha, key]
    simp only [doRenderRows, hstep]
    have e : row + 1 + n = row + (n + 1) := by omega
    rw [e]

/-- C6, as amended: raising `restart` does not abandon the render of the
viewport region, which `run` calls with `ignoreRestart = true`. From a point
inside that pass with `restart` set and `abort` clear, the worker running on
renders every remaining row of the old viewport and sends its completed
tile; it is the full-image pass after it that is abandoned, at its first
loop test, with no row rendered and no tile sent; the worker then clears
`restart` and takes up the shared region and scale, and the next pass
renders that region. A full-image pass in progress is left at its next loop
test once `restart` is set, and its tile is not sent. -/
theorem viewport_pass_ignores_restart (rt : RenderThread σ) (row : Nat) (a : QImage)
    (hpc : rt.pc = Pc.viewport row a) (h1 : rt._miny ≤ row) (h2 : row ≤ rt._maxy)
    (hr : rt.restart = true) (ha : rt.abort = false) :
    (∃ a1 : QImage,
      (∀ r c, row ≤ r → r < rt._maxy → rt._minx ≤ c → c < rt._maxx →
        a1.pixels (r - rt._miny) (c - rt._minx) = some (renderPixel ops rt.images rt.gamma c r))
      ∧ (runSteps ops (rt._maxy - row) rt).pc = Pc.viewport rt._maxy a1
      ∧ (runSteps ops (rt._maxy - row + 1) rt).emitted
        = rt.emitted ++ [{
            site := Site.viewport, x := rt._minx, y := rt._miny,
            width := ops.getWidth rt.images, height := ops.getHeight rt.images,
            image := a1, rowsRendered := rt._maxy - rt._miny,
            rowsRequested := rt._maxy - rt._miny }]
      ∧ (runSteps ops (rt._maxy - row + 1) rt).pc
        = Pc.full 0 (ops.getWidth rt.images % 4294967296) (ops.getHeight rt.images % 4294967296)
            (QImage.create (ops.getWidth rt.images) (ops.getHeight rt.images))
      ∧ (runSteps ops (rt._maxy - row + 2) rt).pc
        = Pc.lock 0 (ops.getHeight rt.images % 4294967296)
            (QImage.create (ops.getWidth rt.images) (ops.getHeight rt.images))
      ∧ (runSteps ops (rt._maxy - row + 3) rt).emitted
        = (runSteps ops (rt._maxy - row + 1) rt).emitted
      ∧ (runSteps ops (rt._maxy - row + 3) rt).pc = Pc.top
      ∧ (runSteps ops (rt._maxy - row + 3) rt).restart = false
      ∧ (runSteps ops (rt._maxy - row + 3) rt)._minx = rt.minx
      ∧ (runSteps ops (rt._maxy - row + 3) rt)._miny = rt.miny
      ∧ (runSteps ops (rt._maxy - row + 3) rt)._maxx = rt.maxx
      ∧ (runSteps ops (rt._maxy - row + 3) rt)._maxy = rt.maxy
      ∧ (runSteps ops (rt._maxy - row + 3) rt).images = ops.setScale rt.images rt.scale
      ∧ (0 < rt.maxy →
          (runSteps ops (rt._maxy - row + 4) rt).pc
            = Pc.viewport rt.miny
                (QImage.create (toI32 (subU32 rt.maxx rt.minx)) (toI32 (subU32 rt.maxy rt.miny)))))
    ∧ (∀ (rt2 : RenderThread σ) (row2 maxx maxy : Nat) (b : QImage),
        rt2.pc = Pc.full row2 maxx maxy b → rt2.restart = true →
          (run ops rt2).pc = Pc.lock row2 maxy b
          ∧ (run ops (run ops rt2)).emitted = rt2.emitted
          ∧ (run ops (run ops rt2)).restart = false
          ∧ (run ops (run ops rt2)).pc = Pc.top
          ∧ (run ops (run ops rt2))._minx = rt2.minx
          ∧ (run ops (run ops rt2))._miny = rt2.miny
          ∧ (run ops (run ops rt2))._maxx = rt2.maxx
          ∧ (run ops (run ops rt2))._maxy = rt2.maxy) := by
  constructor
  · have hrun := runSteps_viewport ops (rt._maxy - row) rt row a hpc ha (by omega)
    have hrow : row + (rt._maxy - row) = rt._maxy := by omega
    rw [hrow] at hrun
    have hcomp := doRenderRows_complete ops rt.images rt.gamma
      (fun _ => { restart := rt.restart, abort := rt.abort })
      rt._minx rt._miny rt._maxx rt._maxy true (rt._maxy - row) row a (Nat.le_refl _) h1 h2
      (fun _ _ _ => Or.inr rfl) (fun _ _ _ => ha)
    obtain ⟨a1, ha1⟩ : ∃ a1 : QImage, a1 = (doRenderRows ops rt.images rt.gamma
      (fun _ => { restart := rt.restart, abort := rt.abort })
      rt._minx rt._miny rt._maxx rt._maxy true (rt._maxy - row) row a).image := ⟨_, rfl⟩
    rw [← ha1] at hrun hcomp
    have hs1 : runSteps ops (rt._maxy - row + 1) rt
        = enterFull ops (emitViewport ops { rt with pc := Pc.viewport rt._maxy a1 } rt._maxy a1) := by
      rw [runSteps_add, hrun]
      exact run_viewport_end ops { rt with pc := Pc.viewport rt._maxy a1 } rt._maxy a1 rfl
        (Nat.lt_irrefl _)
    have hs2 : runSteps ops (rt._maxy - row + 2) rt
        = { enterFull ops (emitViewport ops { rt with pc := Pc.viewport rt._maxy a1 } rt._maxy a1) with
            pc := Pc.lock 0 (ops.getHeight rt.images % 4294967296)
              (QImage.create (ops.getWidth rt.images) (ops.getHeight rt.images)) } := by
      rw [show rt._maxy - row + 2 = (rt._maxy - row + 1) + 1 from rfl, runSteps_add, hs1]
      exact run_full_restart ops
        (enterFull ops (emitViewport ops { rt with pc := Pc.viewport rt._maxy a1 } rt._maxy a1))
        0 (ops.getWidth rt.images % 4294967296) (ops.getHeight rt.images % 4294967296)
        (QImage.create (ops.getWidth rt.images) (ops.getHeight rt.images)) rfl hr
    have hs3 : runSteps ops (rt._maxy - row + 3) rt
        = reread ops
          { enterFull ops (emitViewport ops { rt with pc := Pc.viewport rt._maxy a1 } rt._maxy a1) with
            pc := Pc.lock 0 (ops.getHeight rt.images % 4294967296)
              (QImage.create (ops.getWidth rt.images) (ops.getHeight rt.images)) } := by
      rw [show rt._maxy - row + 3 = (rt._maxy - row + 2) + 1 from rfl, runSteps_add, hs2]
      exact run_lock_restart ops
        { enterFull ops (emitViewport ops { rt with pc := Pc.viewport rt._maxy a1 } rt._maxy a1) with
          pc := Pc.lock 0 (ops.getHeight rt.images % 4294967296)
            (QImage.create (ops.getWidth rt.images) (ops.getHeight rt.images)) }
        0 (ops.getHeight rt.images % 4294967296)
        (QImage.create (ops.getWidth rt.images) (ops.getHeight rt.images)) rfl hr
    have hs4 : 0 < rt.maxy → (runSteps ops (rt._maxy - row + 4) rt).pc
        = Pc.viewport rt.miny
            (QImage.create (toI32 (subU32 rt.maxx rt.minx)) (toI32 (subU32 rt.maxy rt.miny))) := by
      intro hpos
      rw [show rt._maxy - row + 4 = (rt._maxy - row + 3) + 1 from rfl, runSteps_add, hs3]
      simp [runSteps, run, reread, enterFull, emitViewport, ha, hpos]
    refine ⟨a1, ?_, ?_, ?_, ?_, ?_, ?_, ?_, ?_, ?_, ?_, ?_, ?_, ?_, hs4⟩
    · intro r c hr1 hr2 hc1 hc2
      have hcond : row ≤ r - rt._miny + rt._miny ∧ r - rt._miny + rt._miny < rt._maxy
          ∧ c - rt._minx < rt._maxx - rt._minx := by omega
      have e1 : rt._minx + (c - rt._minx) = c := by omega
      have e2 : r - rt._miny + rt._miny = r := by omega
      rw [hcomp.2, if_pos hcond, e1, e2]
    · rw [hrun]
    · rw [hs1]; rfl
    · rw [hs1]; rfl
    · rw [hs2]
    · rw [hs3, hs1]; rfl
    · rw [hs3]; rfl
    · rw [hs3]; rfl
    · rw [hs3]; rfl
    · rw [hs3]; rfl
    · rw [hs3]; rfl
    · rw [hs3]; rfl
    · rw [hs3]; rfl
  · intro rt2 row2 maxx maxy b hpc2 hr2
    have e1 := run_full_restart ops rt2 row2 maxx maxy b hpc2 hr2
    have e2 := run_lock_restart ops { rt2 with pc := Pc.lock row2 maxy b } row2 maxy b rfl hr2
    rw [e1, e2]
    exact ⟨rfl, rfl, rfl, rfl, rfl, rfl, rfl, rfl⟩

/-- C6 fails as stated: in the execution `restartDuringViewport` the worker
stands at row 1 of the 2-row viewport region when `restart` is raised; its
next step renders row 1 all the same, and the step after sends the completed
viewport tile. -/
theorem viewport_pass_not_abandoned :
    (exec toyOps toyThread restartDuringViewport).restart = true
    ∧ (exec toyOps toyThread restartDuringViewport).pc.place = Place.viewport 1
    ∧ (exec toyOps toyThread (restartDuringViewport ++ [Action.run])).pc.place = Place.viewport 2
    ∧ (exec toyOps toyThread (restartDuringViewport ++ [Action.run])).pc.image.pixels 1 1
      = some 4278255872
    ∧ (exec toyOps toyThread (restartDuringViewport ++ [Action.run, Action.run])).emitted.map
        (fun t => (t.site, t.rowsRendered, t.rowsRequested))
      = [(Site.viewport, 2, 2)]
    ∧ (exec toyOps toyThread (restartDuringViewport ++ [Action.run, Action.run])).emitted.map
        (fun t => (t.image.pixels 1 0, t.image.pixels 1 1))
      = [(some 4278190336, some 4278255872)] := by
  decide

/-- An instance of `viewport_pass_ignores_restart`, at the state the
execution `restartDuringViewport` reaches: three steps after the remaining
row the worker is back at the head of `run` with `restart` clear and the
completed viewport tile sent. -/
theorem viewport_pass_ignores_restart_witness :
    ((exec toyOps toyThread restartDuringViewport).pc.place = Place.viewport 1
      ∧ (exec toyOps toyThread restartDuringViewport).restart = true
      ∧ (exec toyOps toyThread restartDuringViewport).abort = false)
    ∧ (runSteps toyOps ((exec toyOps toyThread restartDuringViewport)._maxy - 1 + 3)
        (exec toyOps toyThread restartDuringViewport)).pc = Pc.top
    ∧ (runSteps toyOps ((exec toyOps toyThread restartDuringViewport)._maxy - 1 + 3)
        (exec toyOps toyThread restartDuringViewport)).restart = false := by
  obtain ⟨⟨a1, h⟩, _⟩ := viewport_pass_ignores_restart toyOps
    (exec toyOps toyThread restartDuringViewport) 1
    (exec toyOps toyThread restartDuringViewport).pc.image rfl (by decide) (by decide)
    (by decide) (by decide)
  exact ⟨by decide, h.2.2.2.2.2.2.1, h.2.2.2.2.2.2.2.1⟩

end Worker

/-! ## Which full-image tiles are sent -/

section FullTiles

variable {σ : Type} (ops : ExposureStackOps σ)

theorem doRenderRow_returned (images : σ) (gamma : Int → Int) (flags : Flags)
    (minx miny maxx maxy : Nat) (ignoreRestart : Bool) (row : Nat) (image : QImage)
    (h : doRenderRow ops images gamma flags minx miny maxx maxy ignoreRestart row image
      = RowStep.returned) : flags.abort = true := by
  unfold doRenderRow at h
  split at h
  · split at h
    · assumption
    · cases h
  · cases h

theorem doRenderRow_left (images : σ) (gamma : Int → Int) (flags : Flags)
    (minx miny maxx maxy : Nat) (row : Nat) (image : QImage)
    (h : doRenderRow ops images gamma flags minx miny maxx maxy false row image = RowStep.left) :
    flags.restart = true ∨ ¬ row < maxy := by
  unfold doRenderRow at h
  split at h
  · split at h <;> cases h
  · rename_i hc
    simp only [Bool.and_eq_true, Bool.or_eq_true, Bool.not_eq_true', decide_eq_true_eq,
      not_and, Bool.or_false] at hc
    by_cases hr : flags.restart = true
    · exact Or.inl hr
    · exact Or.inr (hc (by simpa using hr))

/-- No action clears `abort`. -/
theorem step_abort (rt : RenderThread σ) (a : Action) (h : (step ops rt a).abort = false) :
    rt.abort = false := by
  cases a with
  | setGamma floored => exact h
  | setExposureThreshold i th => exact h
  | setExposureRelativeEV i re => exact h
  | setImageViewport x y w h2 newScale =>
    simp only [step, setImageViewport] at h
    split at h <;> split at h <;> exact h
  | addPixels i x y radius => exact h
  | removePixels i x y radius => exact h
  | destroy => cases h
  | run =>
    simp only [step, run] at h
    split at h
    · split at h
      · exact h
      · split at h <;> exact h
    · split at h <;> exact h
    · split at h <;> exact h
    · split at h <;> exact h
    · exact h
    · exact h
    · exact h

theorem fullPassOk_wake (pc : Pc) (r1 r2 : Bool) (hr : r1 = true → r2 = true)
    (h : FullPassOk pc r1) : FullPassOk pc.wake r2 := by
  cases pc with
  | top => trivial
  | viewport row a => trivial
  | full row maxx maxy b => exact h
  | lock row maxy b =>
    rcases h with h | h
    · exact Or.inl h
    · exact Or.inr (hr h)
  | waiting => trivial
  | woken => trivial
  | finished => trivial

theorem fullTiles_append_other (l : List Tile) (t : Tile) (ht : t.site ≠ Site.full)
    (h : ∀ u ∈ l, u.site = Site.full → u.rowsRendered = u.rowsRequested) :
    ∀ u ∈ l ++ [t], u.site = Site.full → u.rowsRendered = u.rowsRequested := by
  intro u hu hs
  rcases List.mem_append.1 hu with hu | hu
  · exact h u hu hs
  · have : u = t := by simpa using hu
    subst this
    exact absurd hs ht

theorem fullPassOk_mono (pc : Pc) (r1 r2 : Bool) (hr : r1 = true → r2 = true)
    (h : FullPassOk pc r1) : FullPassOk pc r2 := by
  cases pc with
  | lock row maxy b =>
    rcases h with h | h
    · exact Or.inl h
    · exact Or.inr (hr h)
  | top => trivial
  | viewport row a => trivial
  | full row maxx maxy b => exact h
  | waiting => trivial
  | woken => trivial
  | finished => trivial

/-- A step of the worker with `abort` clear keeps the invariant. -/
theorem run_fullTilesComplete (rt : RenderThread σ) (hab : rt.abort = false)
    (ht : ∀ t ∈ rt.emitted, t.site = Site.full → t.rowsRendered = t.rowsRequested)
    (hp : FullPassOk rt.pc rt.restart) :
    (∀ t ∈ (run ops rt).emitted, t.site = Site.full → t.rowsRendered = t.rowsRequested)
    ∧ FullPassOk (run ops rt).pc (run ops rt).restart := by
  unfold run
  cases hpc : rt.pc with
  | top =>
    simp only [hab, Bool.false_eq_true, if_false]
    split
    · exact ⟨ht, trivial⟩
    · exact ⟨ht, Nat.zero_le _⟩
  | viewport row a =>
    simp only
    have hsent : ∀ t ∈ (emitViewport ops rt row a).emitted,
        t.site = Site.full → t.rowsRendered = t.rowsRequested :=
      fullTiles_append_other rt.emitted _ (by simp) ht
    split
    · exact ⟨ht, trivial⟩
    · exact ⟨hsent, Nat.zero_le _⟩
    · exact ⟨hsent, Nat.zero_le _⟩
  | full row maxx maxy b =>
    rw [hpc] at hp
    simp only
    split
    · rename_i b1 hstep
      have h := doRenderRow_rendered ops rt.images rt.gamma _ _ _ _ _ _ _ _ _ hstep
      exact ⟨ht, h.2.1⟩
    · rename_i hstep
      refine ⟨ht, ?_⟩
      rcases doRenderRow_left ops rt.images rt.gamma _ _ _ _ _ _ _ hstep with h | h
      · exact Or.inr h
      · have hle : row ≤ maxy := hp
        exact Or.inl (by omega)
    · rename_i hstep
      have h := doRenderRow_returned ops rt.images rt.gamma _ _ _ _ _ _ _ _ hstep
      simp [hab] at h
  | lock row maxy b =>
    rw [hpc] at hp
    simp only
    cases hr : rt.restart with
    | false =>
      simp only [Bool.not_false, if_true]
      refine ⟨?_, trivial⟩
      intro t htm hs
      rcases List.mem_append.1 htm with htm | htm
      · exact ht t htm hs
      · rw [List.mem_singleton] at htm
        subst htm
        rcases hp with hp | hp
        · exact hp
        · rw [hr] at hp; cases hp
    | true =>
      simp only [Bool.not_true, Bool.false_eq_true, if_false]
      exact ⟨ht, trivial⟩
  | waiting => exact ⟨ht, by rw [hpc]; trivial⟩
  | woken => exact ⟨ht, trivial⟩
  | finished => exact ⟨ht, by rw [hpc]; trivial⟩

/-- Every action keeps the invariant. -/
theorem step_fullTilesComplete (rt : RenderThread σ) (a : Action) (h : FullTilesComplete rt) :
    FullTilesComplete (step ops rt a) := by
  intro hab2
  have hab := step_abort ops rt a hab2
  obtain ⟨ht, hp⟩ := h hab
  cases a with
  | setGamma floored => exact ⟨ht, hp⟩
  | setExposureThreshold i th =>
    exact ⟨ht, fullPassOk_wake rt.pc rt.restart true (fun _ => rfl) hp⟩
  | setExposureRelativeEV i re =>
    exact ⟨ht, fullPassOk_wake rt.pc rt.restart true (fun _ => rfl) hp⟩
  | setImageViewport x y w h2 newScale =>
    simp only [step, setImageViewport]
    split
    · split
      · exact ⟨ht, fullPassOk_wake rt.pc rt.restart true (fun _ => rfl) hp⟩
      · exact ⟨ht, fullPassOk_mono rt.pc rt.restart true (fun _ => rfl) hp⟩
    · split
      · exact ⟨ht, fullPassOk_wake rt.pc rt.restart rt.restart (fun h => h) hp⟩
      · exact ⟨ht, hp⟩
  | addPixels i x y radius =>
    exact ⟨fullTiles_append_other rt.emitted _ (by simp) ht, hp⟩
  | removePixels i x y radius =>
    exact ⟨fullTiles_append_other rt.emitted _ (by simp) ht, hp⟩
  | destroy => cases hab2
  | run => exact run_fullTilesComplete ops rt hab ht hp

theorem exec_fullTilesComplete (rt : RenderThread σ) (actions : List Action)
    (h : FullTilesComplete rt) : FullTilesComplete (exec ops rt actions) := by
  induction actions generalizing rt with
  | nil => exact h
  | cons a actions ih => exact ih (step ops rt a) (step_fullTilesComplete ops rt a h)

/-- In every execution from the constructed thread, as long as `abort` has
not been raised, each full-image tile sent comes from a pass that rendered
every row it was asked for: a pass cut short by `restart` is never sent. -/
theorem full_tiles_complete_unless_abort (es : σ) (floored : Int → Int) (actions : List Action)
    (hab : (exec ops (RenderThread.create es floored) actions).abort = false) :
    ∀ t ∈ (exec ops (RenderThread.create es floored) actions).emitted,
      t.site = Site.full → t.rowsRendered = t.rowsRequested := by
  have h0 : FullTilesComplete (RenderThread.create es floored) :=
    fun _ => ⟨fun t ht => absurd ht (List.not_mem_nil t), trivial⟩
  exact (exec_fullTilesComplete ops _ actions h0 hab).1

/-- An instance of `full_tiles_complete_unless_abort`: left alone for six
steps, the worker on the example thread renders the three rows of the full
image and sends the tile. -/
theorem full_tiles_complete_unless_abort_witness :
    (exec toyOps (RenderThread.create toyStack id)
        [Action.run, Action.run, Action.run, Action.run, Action.run, Action.run]).abort = false
    ∧ (exec toyOps (RenderThread.create toyStack id)
        [Action.run, Action.run, Action.run, Action.run, Action.run, Action.run]).emitted.map
        (fun t => (t.site, t.rowsRendered, t.rowsRequested)) = [(Site.full, 3, 3)]
    ∧ ∀ t ∈ (exec toyOps (RenderThread.create toyStack id)
        [Action.run, Action.run, Action.run, Action.run, Action.run, Action.run]).emitted,
        t.site = Site.full → t.rowsRendered = t.rowsRequested :=
  ⟨by decide, by decide,
   full_tiles_complete_unless_abort toyOps toyStack id
     [Action.run, Action.run, Action.run, Action.run, Action.run, Action.run] (by decide)⟩

/-- C10 fails on the code when `abort` is raised during the full pass: in
the execution `abortDuringFull` the pass over the 4 by 3 image returns after
row 0, `restart` is clear, and `run` sends the full-image tile with rows 1
and 2 unwritten, then blocks in `condition.wait`. -/
theorem full_tile_sent_after_abort :
    (exec toyOps toyThread abortDuringFull).emitted.map
        (fun t => (t.site, t.rowsRendered, t.rowsRequested))
      = [(Site.full, 1, 3)]
    ∧ (exec toyOps toyThread abortDuringFull).emitted.map (fun t => (t.x, t.y, t.width, t.height))
      = [((0 : Int), (0 : Int), 4, 3)]
    ∧ (exec toyOps toyThread abortDuringFull).emitted.map
        (fun t => (t.image.pixels 0 0, t.image.pixels 1 0, t.image.pixels 2 3))
      = [(some 4278190080, none, none)]
    ∧ (exec toyOps toyThread abortDuringFull).restart = false
    ∧ (exec toyOps toyThread abortDuringFull).abort = true
    ∧ (exec toyOps toyThread abortDuringFull).pc.place = Place.waiting := by
  decide

end FullTiles

end HDRMerge
